import Mathlib

/-!
Shallow embedding of the repository's single source file, llm_utils.py.

The module has two independent components:
* a token-buffering streaming handler (BufferedStreamingHandler), embedded as a
  pure state-passing machine over HandlerState, where the two side-effecting
  sinks (print to stdout, the optional ui_callback) are recorded as lists of the
  strings written to each;
* a model registry (fetch_lmstudio_models / get_model_choices /
  resolve_model_config).  Network effects are made explicit: the single HTTP
  request issued by fetch_lmstudio_models is modelled by an HTTPOutcome value
  given as an argument, and the functions that in Python call
  fetch_lmstudio_models() internally take the discovered list as an argument.
  Python exceptions that escape a function are modelled with Except.

The configuration value LMSTUDIO_BASE_URL comes from config.py, which is not
part of the source tree; it is an external configuration string that may be
None or empty, so it is modelled as a parameter of type Option String.
-/

set_option maxRecDepth 40000

namespace LlmUtils

/-- Parsed JSON values, the possible results of resp.json(). -/
inductive Json where
  | null : Json
  | bool (b : Bool) : Json
  | num (n : Int) : Json
  | str (s : String) : Json
  | arr (xs : List Json) : Json
  | obj (kvs : List (String × Json)) : Json

/-- Python exceptions that are not caught by fetch_lmstudio_models's
except clause, so they propagate to the caller. -/
inductive PyErr where
  | attributeError : PyErr
  | typeError : PyErr
deriving DecidableEq

/-- Outcome of the one HTTP GET issued by fetch_lmstudio_models:
either requests.get raised (connection error, timeout, ...), or a response
arrived with a status code and a body that either parses as JSON (some j)
or does not (none, making resp.json() raise ValueError). -/
inductive HTTPOutcome where
  | networkError : HTTPOutcome
  | response (status : Nat) (body : Option Json) : HTTPOutcome

/-- Python truthiness of a JSON value, used by the code's if model_id: test. -/
def jsonTruthy : Json → Bool
  | .null => false
  | .bool b => b
  | .num n => n != 0
  | .str s => s != ""
  | .arr xs => !xs.isEmpty
  | .obj kvs => !kvs.isEmpty

/-- Python dict .get(k): the value stored under key k, if present.
Python dicts cannot hold duplicate keys, so taking the first match is exact. -/
def jlookup (k : String) : List (String × Json) → Option Json
  | [] => none
  | (k', v) :: rest => if k' == k then some v else jlookup k rest

/-- The provider client classes appearing in the catalog. -/
inductive ClientClass where
  | chatOpenAI : ClientClass
  | chatAnthropic : ClientClass
  | chatGoogleGenerativeAI : ClientClass
deriving DecidableEq

/-- A value of llm config map: the client class plus constructor parameters.
Parameter values are strings, except base_url whose value is the raw
LMSTUDIO_BASE_URL configuration (possibly Python None, hence Option). -/
structure LLMConfig where
  cls : ClientClass
  constructor_params : List (String × Option String)
deriving DecidableEq

/-- The static catalog llm config map, verbatim from the source, in
declaration order.  lms is the external LMSTUDIO_BASE_URL configuration. -/
def llm_config_map (lms : Option String) : List (String × LLMConfig) :=
  [ ("gpt-4.1",
      ⟨.chatOpenAI, [("model_name", some "gpt-4.1")]⟩),
    ("gpt-5.1",
      ⟨.chatOpenAI, [("model_name", some "gpt-5.1")]⟩),
    ("gpt-5-mini",
      ⟨.chatOpenAI, [("model_name", some "gpt-5-mini")]⟩),
    ("gpt-5-nano",
      ⟨.chatOpenAI, [("model_name", some "gpt-5-nano")]⟩),
    ("claude-sonnet-4-5",
      ⟨.chatAnthropic, [("model", some "claude-sonnet-4-5")]⟩),
    ("claude-sonnet-4-0",
      ⟨.chatAnthropic, [("model", some "claude-sonnet-4-0")]⟩),
    ("gemini-2.5-flash",
      ⟨.chatGoogleGenerativeAI, [("model", some "gemini-2.5-flash")]⟩),
    ("gemini-2.5-flash-lite",
      ⟨.chatGoogleGenerativeAI, [("model", some "gemini-2.5-flash-lite")]⟩),
    ("gemini-2.5-pro",
      ⟨.chatGoogleGenerativeAI, [("model", some "gemini-2.5-pro")]⟩),
    ("huihui-qwen3-vl-8b-instruct-abliterated",
      ⟨.chatOpenAI, [("model", some "huihui-qwen3-vl-8b-instruct-abliterated"),
                     ("base_url", lms), ("api_key", some "lm-studio")]⟩) ]

/-- The static catalog's keys in declaration order. -/
def static_keys : List String :=
  ["gpt-4.1", "gpt-5.1", "gpt-5-mini", "gpt-5-nano",
   "claude-sonnet-4-5", "claude-sonnet-4-0",
   "gemini-2.5-flash", "gemini-2.5-flash-lite", "gemini-2.5-pro",
   "huihui-qwen3-vl-8b-instruct-abliterated"]

/-- Python str.strip(): remove leading and trailing whitespace.  (Python also
strips some further Unicode whitespace; the catalog keys and the claims only
involve ASCII whitespace, which Char.isWhitespace covers.) -/
def pyStrip (s : String) : String :=
  ⟨((s.data.dropWhile Char.isWhitespace).reverse.dropWhile Char.isWhitespace).reverse⟩

/-- Python str.lower() (ASCII; the catalog keys are ASCII). -/
def pyToLower (s : String) : String := ⟨s.data.map Char.toLower⟩

/-- Python str.upper() (ASCII), used to state the case-insensitivity claim. -/
def pyToUpper (s : String) : String := ⟨s.data.map Char.toUpper⟩

/-- Python s.rstrip("/"): remove trailing slash characters. -/
def pyRstripSlash (s : String) : String :=
  ⟨(s.data.reverse.dropWhile (· == '/')).reverse⟩

/-- Embedding of normalize model name: name.strip().lower(). -/
def normalize_model_name (name : String) : String :=
  pyToLower (pyStrip name)

/-- Embedding of get lmstudio base url: None when LMSTUDIO_BASE_URL is falsy
(Python None or empty string), otherwise LMSTUDIO_BASE_URL.rstrip("/"). -/
def get_lmstudio_base_url (lms : Option String) : Option String :=
  match lms with
  | none => none
  | some s => if s = "" then none else some (pyRstripSlash s)

/-- Python iteration for m in data: m.get("id"); if model_id: append(model_id).
Elements that are not dicts make m.get raise AttributeError. -/
def collectIdsList : List Json → Except PyErr (List Json)
  | [] => .ok []
  | .obj kv :: rest =>
      match jlookup "id" kv with
      | some v =>
          if jsonTruthy v then (collectIdsList rest).map (fun ids => v :: ids)
          else collectIdsList rest
      | none => collectIdsList rest
  | _ :: _ => .error .attributeError

/-- Python for m in data over an arbitrary JSON value data:
iterating a list visits its elements; iterating a string visits its characters
(each a str, so .get raises AttributeError unless the string is empty);
iterating a dict visits its keys (strings, same AttributeError unless empty);
null, booleans and numbers are not iterable (TypeError). -/
def collectIds : Json → Except PyErr (List Json)
  | .arr xs => collectIdsList xs
  | .str s => if s = "" then .ok [] else .error .attributeError
  | .obj kvs => if kvs.isEmpty then .ok [] else .error .attributeError
  | _ => .error .typeError

/-- Embedding of fetch lmstudio models.  lms is the LMSTUDIO_BASE_URL
configuration and out the outcome of the one requests.get call.
requests.RequestException (network errors and raise_for_status's HTTPError on
4xx/5xx) and ValueError (JSON decode failure) are caught and yield [];
any other exception propagates as .error. -/
def fetch_lmstudio_models (lms : Option String) (out : HTTPOutcome) :
    Except PyErr (List Json) :=
  match get_lmstudio_base_url lms with
  | none => .ok []
  | some base_url =>
    if base_url = "" then .ok []
    else
      match out with
      | .networkError => .ok []
      | .response status body =>
        if 400 ≤ status ∧ status < 600 then .ok []
        else
          match body with
          | none => .ok []
          | some (.obj kvs) => collectIds ((jlookup "data" kvs).getD (.arr []))
          | some _ => .error .attributeError

/-- Tests whether a JSON value is an object (a Python dict). -/
def isObjJson : Json → Bool
  | .obj _ => true
  | _ => false

/-- Shapes of a data value over which the Python loop for m in data runs to
completion without raising: a list of dicts, or an empty string or empty dict
(whose iterations visit nothing).  Used to state the amended error-handling
claim about fetch_lmstudio_models. -/
def dataIterationSucceeds : Json → Bool
  | .arr xs => xs.all isObjJson
  | .str s => s == ""
  | .obj kvs => kvs.isEmpty
  | _ => false

/-- Condition of the amended error-handling claim: fetch_lmstudio_models
returns (rather than raises) exactly when discovery is disabled, the request
fails or has an error status, the body is not JSON, or the body is a JSON
object whose data member (defaulting to an empty array) survives the loop. -/
def fetchReturnsCleanly (lms : Option String) (out : HTTPOutcome) : Bool :=
  match get_lmstudio_base_url lms with
  | none => true
  | some b =>
    if b = "" then true
    else
      match out with
      | .networkError => true
      | .response st body =>
        if 400 ≤ st ∧ st < 600 then true
        else
          match body with
          | none => true
          | some (.obj kvs) => dataIterationSucceeds ((jlookup "data" kvs).getD (.arr []))
          | some _ => false

/-- Expected output of the amended discovery claim: the id values that are
present and truthy in the objects of the data array, in response order. -/
def presentTruthyIds (xs : List Json) : List Json :=
  xs.filterMap (fun m =>
    match m with
    | .obj kv =>
      match jlookup "id" kv with
      | some v => if jsonTruthy v then some v else none
      | none => none
    | _ => none)

/-- Python dict insertion with overwrite, for the comprehension building
normalized from the base models. -/
def dictInsert (acc : List (String × String)) (k v : String) :
    List (String × String) :=
  if acc.any (fun p => p.1 == k) then
    acc.map (fun p => if p.1 == k then (k, v) else p)
  else acc ++ [(k, v)]

/-- Embedding of get model choices.  dyn stands for the list returned by the
internal fetch_lmstudio_models() call (always strings in practice).
Python's sorted is a stable sort by key; List.insertionSort is stable. -/
def get_model_choices (lms : Option String) (dyn : List String) : List String :=
  let base_models := (llm_config_map lms).map Prod.fst
  let normalized :=
    base_models.foldl (fun acc m => dictInsert acc (normalize_model_name m) m) []
  let normalized :=
    dyn.foldl (fun acc dm =>
      let key := normalize_model_name dm
      if acc.any (fun p => p.1 == key) then acc else acc ++ [(key, dm)]) normalized
  let ordered_dynamic :=
    ((normalized.map Prod.snd).filter (fun name => !base_models.contains name)
      ).insertionSort
        (fun a b => (normalize_model_name a).data ≤ (normalize_model_name b).data)
  base_models ++ ordered_dynamic

/-- The descriptor resolve_model_config synthesizes for a discovered LM Studio
model m: ChatOpenAI with the original-case identifier, the raw
LMSTUDIO_BASE_URL and the placeholder api key. -/
def lmstudioConfig (lms : Option String) (m : String) : LLMConfig :=
  ⟨.chatOpenAI, [("model", some m), ("base_url", lms), ("api_key", some "lm-studio")]⟩

/-- The for-loop of resolve_model_config over the discovered models: return a
synthesized descriptor for the first identifier whose normalized form equals
the normalized model choice. -/
def resolveDynamic (lms : Option String) (key : String) :
    List String → Option LLMConfig
  | [] => none
  | m :: rest =>
      if normalize_model_name m == key then some (lmstudioConfig lms m)
      else resolveDynamic lms key rest

/-- Embedding of resolve model config.  dyn stands for the list returned by
the internal fetch_lmstudio_models() call; Python returns None on miss,
modelled by Option. -/
def resolve_model_config (lms : Option String) (dyn : List String)
    (model_choice : String) : Option LLMConfig :=
  let model_choice_lower := normalize_model_name model_choice
  match (llm_config_map lms).find? (fun p => p.1 == model_choice_lower) with
  | some p => some p.2
  | none => resolveDynamic lms model_choice_lower dyn

/-- State of a BufferedStreamingHandler together with the record of what has
been written to its two sinks: out collects the strings printed to stdout, ui
the strings passed to ui_callback.  has_ui records whether a ui_callback was
supplied (Python if self.ui_callback). -/
structure HandlerState where
  buffer : String
  buffer_limit : Nat
  has_ui : Bool
  out : List String
  ui : List String
deriving DecidableEq

/-- A freshly constructed handler (buffer is the empty string). -/
def initHandler (limit : Nat) (hu : Bool) : HandlerState :=
  ⟨"", limit, hu, [], []⟩

/-- Python "\n" in token: the token contains a newline character. -/
def hasNewline (s : String) : Bool :=
  s.data.contains '\n'

/-- Embedding of on llm new token: append the token to the buffer; if the
token contains a newline or the buffer has reached the limit, write the buffer
to stdout and, when a ui_callback was supplied, pass it the same string, then
clear the buffer. -/
def on_llm_new_token (s : HandlerState) (token : String) : HandlerState :=
  let buf := s.buffer ++ token
  if hasNewline token || buf.length ≥ s.buffer_limit then
    { s with buffer := "", out := s.out ++ [buf],
             ui := if s.has_ui then s.ui ++ [buf] else s.ui }
  else { s with buffer := buf }

/-- Embedding of on llm end: flush the buffer through both sinks if it is
non-empty. -/
def on_llm_end (s : HandlerState) : HandlerState :=
  if s.buffer ≠ "" then
    { s with buffer := "", out := s.out ++ [s.buffer],
             ui := if s.has_ui then s.ui ++ [s.buffer] else s.ui }
  else s

/-- Feed a list of tokens to the handler in order. -/
def runTokens (s : HandlerState) (ts : List String) : HandlerState :=
  ts.foldl on_llm_new_token s

/-- Concatenation of all the strings in a list, in order. -/
def strConcat (l : List String) : String :=
  ⟨(l.map String.data).flatten⟩

/-- Step function following the spec's words for the Token Buffer: append the
token to the accumulator; flush exactly when, after appending, the accumulator
contains a newline or its length has reached the configured limit; a flush
writes the accumulated text to the primary sink and, if a secondary callback
was supplied, passes the same text to it verbatim, then clears the
accumulator.  (The code instead tests for a newline in the incoming token;
the flush-condition claim states that on reachable states the two agree.) -/
def specTokenStep (limit : Nat) (hu : Bool) (s : HandlerState) (t : String) :
    HandlerState :=
  let buf := s.buffer ++ t
  if hasNewline buf || buf.length ≥ limit then
    { s with buffer := "", out := s.out ++ [buf],
             ui := if hu then s.ui ++ [buf] else s.ui }
  else { s with buffer := buf }

/- Supporting lemmas. -/

theorem hasNewline_append (a b : String) :
    hasNewline (a ++ b) = (hasNewline a || hasNewline b) := by
  simp [hasNewline, String.data_append]

theorem strConcat_nil : strConcat [] = "" := rfl

theorem strConcat_append_one (l : List String) (x : String) :
    strConcat (l ++ [x]) = strConcat l ++ x := by
  apply String.ext
  simp [strConcat, String.data_append]

theorem strConcat_cons (t : String) (ts : List String) :
    strConcat (t :: ts) = t ++ strConcat ts := by
  apply String.ext
  simp [strConcat, String.data_append]

theorem runTokens_cons (s : HandlerState) (t : String) (ts : List String) :
    runTokens s (t :: ts) = runTokens (on_llm_new_token s t) ts := rfl

theorem step_buffer_limit (s : HandlerState) (t : String) :
    (on_llm_new_token s t).buffer_limit = s.buffer_limit := by
  simp only [on_llm_new_token]
  split <;> rfl

theorem step_has_ui (s : HandlerState) (t : String) :
    (on_llm_new_token s t).has_ui = s.has_ui := by
  simp only [on_llm_new_token]
  split <;> rfl

theorem step_content (s : HandlerState) (t : String) :
    strConcat (on_llm_new_token s t).out ++ (on_llm_new_token s t).buffer =
      strConcat s.out ++ s.buffer ++ t := by
  simp only [on_llm_new_token]
  split
  · simp [strConcat_append_one, String.append_assoc, String.append_empty]
  · simp [String.append_assoc]

theorem step_preserves (s : HandlerState) (t : String)
    (h3 : hasNewline s.buffer = false)
    (h5 : s.has_ui = true → s.ui = s.out)
    (h6 : s.has_ui = false → s.ui = []) :
    hasNewline (on_llm_new_token s t).buffer = false ∧
    (0 < s.buffer_limit → (on_llm_new_token s t).buffer.length < s.buffer_limit) ∧
    ((on_llm_new_token s t).has_ui = true →
      (on_llm_new_token s t).ui = (on_llm_new_token s t).out) ∧
    ((on_llm_new_token s t).has_ui = false → (on_llm_new_token s t).ui = []) := by
  simp only [on_llm_new_token]
  split
  · refine ⟨rfl, fun hl => by simpa using hl, ?_, ?_⟩
    · intro hui
      simp only at hui
      simp [hui, h5 hui]
    · intro hui
      simp only at hui
      simp [hui, h6 hui]
  · rename_i hcond
    simp only [Bool.or_eq_true, decide_eq_true_eq, not_or, not_le] at hcond
    refine ⟨?_, fun _ => hcond.2, h5, h6⟩
    rw [hasNewline_append, h3, Bool.false_or]
    simpa using hcond.1

theorem runTokens_props (limit : Nat) (hu : Bool) :
    ∀ (ts : List String) (s : HandlerState),
      s.buffer_limit = limit → s.has_ui = hu →
      hasNewline s.buffer = false →
      (0 < limit → s.buffer.length < limit) →
      (hu = true → s.ui = s.out) → (hu = false → s.ui = []) →
      (runTokens s ts).buffer_limit = limit ∧
      (runTokens s ts).has_ui = hu ∧
      hasNewline (runTokens s ts).buffer = false ∧
      (0 < limit → (runTokens s ts).buffer.length < limit) ∧
      (hu = true → (runTokens s ts).ui = (runTokens s ts).out) ∧
      (hu = false → (runTokens s ts).ui = []) ∧
      strConcat (runTokens s ts).out ++ (runTokens s ts).buffer =
        strConcat s.out ++ s.buffer ++ strConcat ts := by
  intro ts
  induction ts with
  | nil =>
    intro s h1 h2 h3 h4 h5 h6
    exact ⟨h1, h2, h3, h4, h5, h6, by simp [runTokens, strConcat_nil]⟩
  | cons t rest ih =>
    intro s h1 h2 h3 h4 h5 h6
    rw [runTokens_cons]
    obtain ⟨g3, g4, g5, g6⟩ := step_preserves s t h3 (h2 ▸ h5) (h2 ▸ h6)
    obtain ⟨k1, k2, k3, k4, k5, k6, k7⟩ :=
      ih (on_llm_new_token s t)
        ((step_buffer_limit s t).trans h1) ((step_has_ui s t).trans h2)
        g3 (h1 ▸ g4) ((step_has_ui s t).trans h2 ▸ g5) ((step_has_ui s t).trans h2 ▸ g6)
    refine ⟨k1, k2, k3, k4, k5, k6, ?_⟩
    rw [k7, step_content, strConcat_cons, String.append_assoc]

/-- C5: on every reachable state, on_llm_new_token behaves as the spec's step:
a flush occurs exactly when, after appending the token, the accumulator
contains a newline or its length has reached the configured limit, and each
flush writes the accumulated text to the primary sink and (when supplied)
passes the same text to the secondary callback, then clears the accumulator.
Moreover feeding the tokens a, b, newline flushes the string ab-newline
exactly once to both sinks, and feeding 61 one-character tokens with limit 60
flushes once, after the 60th token. -/
theorem tokenBuffer_flush_condition :
    (∀ (limit : Nat) (hu : Bool) (ts : List String) (t : String),
      on_llm_new_token (runTokens (initHandler limit hu) ts) t =
        specTokenStep limit hu (runTokens (initHandler limit hu) ts) t) ∧
    runTokens (initHandler 60 true) ["a", "b", "\n"] =
      ⟨"", 60, true, ["ab\n"], ["ab\n"]⟩ ∧
    runTokens (initHandler 60 true) (List.replicate 61 "a") =
      ⟨"a", 60, true, [⟨List.replicate 60 'a'⟩], [⟨List.replicate 60 'a'⟩]⟩ := by
  refine ⟨?_, by decide, by decide⟩
  intro limit hu ts t
  obtain ⟨h1, h2, h3, _, _, _, _⟩ :=
    runTokens_props limit hu ts (initHandler limit hu) rfl rfl rfl
      (fun hl => by simpa using hl) (fun _ => rfl) (fun _ => rfl)
  simp only [on_llm_new_token, specTokenStep, h1, h2, hasNewline_append, h3,
    Bool.false_or]

/-- C6: on_llm_end flushes the remaining accumulator through both sinks when
it is non-empty and writes nothing when it is empty; consequently, after any
token sequence followed by on_llm_end, the concatenation of everything written
to the primary sink (and to the secondary callback, when supplied) equals the
concatenation of all tokens fed in. -/
theorem tokenBuffer_end_flushes_all :
    (∀ s : HandlerState, s.buffer ≠ "" →
      on_llm_end s = { s with buffer := "", out := s.out ++ [s.buffer],
                              ui := if s.has_ui then s.ui ++ [s.buffer] else s.ui }) ∧
    (∀ s : HandlerState, s.buffer = "" → on_llm_end s = s) ∧
    (∀ (limit : Nat) (hu : Bool) (ts : List String),
      strConcat (on_llm_end (runTokens (initHandler limit hu) ts)).out = strConcat ts ∧
      (hu = true →
        strConcat (on_llm_end (runTokens (initHandler limit hu) ts)).ui = strConcat ts) ∧
      (hu = false → (on_llm_end (runTokens (initHandler limit hu) ts)).ui = [])) := by
  refine ⟨fun s hs => by simp [on_llm_end, hs], fun s hs => by simp [on_llm_end, hs], ?_⟩
  intro limit hu ts
  obtain ⟨_, h2, _, _, h5, h6, h7⟩ :=
    runTokens_props limit hu ts (initHandler limit hu) rfl rfl rfl
      (fun hl => by simpa using hl) (fun _ => rfl) (fun _ => rfl)
  have h7' : strConcat (runTokens (initHandler limit hu) ts).out ++
      (runTokens (initHandler limit hu) ts).buffer = strConcat ts := by
    rw [h7]
    simp [initHandler, strConcat_nil]
  set s := runTokens (initHandler limit hu) ts with hs
  by_cases hb : s.buffer = ""
  · have he : on_llm_end s = s := by simp [on_llm_end, hb]
    rw [hb, String.append_empty] at h7'
    rw [he]
    exact ⟨h7', fun hui => by rw [h5 hui]; exact h7', fun hui => h6 hui⟩
  · have he : on_llm_end s =
        { s with buffer := "", out := s.out ++ [s.buffer],
                 ui := if s.has_ui then s.ui ++ [s.buffer] else s.ui } := by
      simp [on_llm_end, hb]
    rw [he]
    refine ⟨?_, ?_, ?_⟩
    · show strConcat (s.out ++ [s.buffer]) = strConcat ts
      rw [strConcat_append_one]
      exact h7'
    · intro hui
      show strConcat (if s.has_ui = true then s.ui ++ [s.buffer] else s.ui) = strConcat ts
      rw [h2, hui, if_pos rfl, h5 hui, strConcat_append_one]
      exact h7'
    · intro hui
      show (if s.has_ui = true then s.ui ++ [s.buffer] else s.ui) = []
      rw [h2, hui]
      simpa using h6 hui

/-- Witness for C6: a handler with pending buffer x and no ui callback
flushes x to the primary sink on stream end. -/
theorem tokenBuffer_end_flushes_all_witness :
    on_llm_end ⟨"x", 60, false, [], []⟩ = ⟨"", 60, false, ["x"], []⟩ := by
  have h := tokenBuffer_end_flushes_all.1 ⟨"x", 60, false, [], []⟩ (by decide)
  simpa using h

/-- C10: after every sequence of on_llm_new_token calls from a fresh handler,
the accumulator contains no newline and (for positive limit) its length is
strictly below the limit; hence the code's test for a newline in the incoming
token coincides with the spec's test for a newline in the appended
accumulator. -/
theorem tokenBuffer_accumulator_invariant :
    ∀ (limit : Nat) (hu : Bool) (ts : List String),
      hasNewline (runTokens (initHandler limit hu) ts).buffer = false ∧
      (0 < limit → (runTokens (initHandler limit hu) ts).buffer.length < limit) ∧
      ∀ t : String,
        (hasNewline t
          || decide (((runTokens (initHandler limit hu) ts).buffer ++ t).length ≥ limit))
        = (hasNewline ((runTokens (initHandler limit hu) ts).buffer ++ t)
          || decide (((runTokens (initHandler limit hu) ts).buffer ++ t).length ≥ limit)) := by
  intro limit hu ts
  obtain ⟨_, _, h3, h4, _, _, _⟩ :=
    runTokens_props limit hu ts (initHandler limit hu) rfl rfl rfl
      (fun hl => by simpa using hl) (fun _ => rfl) (fun _ => rfl)
  refine ⟨h3, h4, fun t => ?_⟩
  rw [hasNewline_append, h3, Bool.false_or]

/-- Witness for C10 after the single token ab with limit 60. -/
theorem tokenBuffer_accumulator_invariant_witness :
    hasNewline (runTokens (initHandler 60 true) ["ab"]).buffer = false ∧
    (runTokens (initHandler 60 true) ["ab"]).buffer.length < 60 := by
  obtain ⟨h1, h2, _⟩ := tokenBuffer_accumulator_invariant 60 true ["ab"]
  exact ⟨h1, h2 (by decide)⟩

theorem map_fst_llm_config_map (lms : Option String) :
    (llm_config_map lms).map Prod.fst = static_keys := rfl

theorem find?_llm_config_map_eq_none (lms : Option String) (key : String)
    (h : key ∉ static_keys) :
    (llm_config_map lms).find? (fun p => p.1 == key) = none := by
  apply List.find?_eq_none.mpr
  intro x hx
  simp only [beq_iff_eq]
  intro hxk
  apply h
  have hx1 : x.1 ∈ static_keys := by
    rw [← map_fst_llm_config_map lms]
    exact List.mem_map_of_mem Prod.fst hx
  exact hxk ▸ hx1

theorem resolveDynamic_eq_find? (lms : Option String) (key : String)
    (dyn : List String) :
    resolveDynamic lms key dyn =
      (dyn.find? (fun d => normalize_model_name d == key)).map (lmstudioConfig lms) := by
  induction dyn with
  | nil => rfl
  | cons m rest ih =>
    simp only [resolveDynamic, List.find?]
    cases h : (normalize_model_name m == key) with
    | true => simp
    | false => simpa using ih

/-- C3: for every key k of the static catalog, resolve(k), resolve(UPPER(k))
and resolve(" k ") all return the identical descriptor, namely the static
catalog's entry for k returned verbatim. -/
theorem resolve_static_case_insensitive (lms : Option String) (dyn : List String)
    (k : String) (hk : k ∈ static_keys) :
    ∃ cfg, (llm_config_map lms).find? (fun p => p.1 == k) = some (k, cfg) ∧
      resolve_model_config lms dyn k = some cfg ∧
      resolve_model_config lms dyn (pyToUpper k) = some cfg ∧
      resolve_model_config lms dyn (" " ++ k ++ " ") = some cfg := by
  fin_cases hk <;> exact ⟨_, rfl, rfl, rfl, rfl⟩

/-- Witness for C3 at the key gpt-4.1. -/
theorem resolve_static_case_insensitive_witness :
    resolve_model_config none [] "GPT-4.1" = resolve_model_config none [] "gpt-4.1" := by
  obtain ⟨cfg, _, h1, h2, _⟩ :=
    resolve_static_case_insensitive none [] "gpt-4.1" (by simp [static_keys])
  have hup : pyToUpper "gpt-4.1" = "GPT-4.1" := by decide
  rw [← hup, h2, h1]

/-- C4: for a model choice not in the static catalog, if some discovered
identifier normalizes to the same key, resolve returns a ChatOpenAI descriptor
whose parameters are exactly the original-case discovered identifier, the
configured local endpoint and the api key "lm-studio" (the first matching
identifier wins). -/
theorem resolve_dynamic_synthesis (lms : Option String) (dyn : List String)
    (choice m : String)
    (h1 : normalize_model_name choice ∉ static_keys)
    (h2 : dyn.find? (fun d => normalize_model_name d == normalize_model_name choice)
            = some m) :
    resolve_model_config lms dyn choice =
      some ⟨.chatOpenAI, [("model", some m), ("base_url", lms),
                          ("api_key", some "lm-studio")]⟩ := by
  simp only [resolve_model_config]
  rw [find?_llm_config_map_eq_none lms _ h1, resolveDynamic_eq_find?, h2]
  rfl

/-- Witness for C4: discovery returns foo-model and the user asks for
FOO-MODEL. -/
theorem resolve_dynamic_synthesis_witness :
    resolve_model_config (some "http://localhost:1234/v1") ["foo-model"] "FOO-MODEL" =
      some ⟨.chatOpenAI, [("model", some "foo-model"),
                          ("base_url", some "http://localhost:1234/v1"),
                          ("api_key", some "lm-studio")]⟩ :=
  resolve_dynamic_synthesis _ _ _ _ (by decide) (by decide)

/-- C9: a model choice matching neither a static key nor any discovered
identifier resolves to the explicit not-found result None, in particular
nonexistent-xyz with empty discovery. -/
theorem resolve_miss_not_found :
    (∀ (lms : Option String) (dyn : List String) (choice : String),
        normalize_model_name choice ∉ static_keys →
        (∀ d ∈ dyn, normalize_model_name d ≠ normalize_model_name choice) →
        resolve_model_config lms dyn choice = none) ∧
    ∀ lms : Option String, resolve_model_config lms [] "nonexistent-xyz" = none := by
  constructor
  · intro lms dyn choice h1 h2
    simp only [resolve_model_config]
    rw [find?_llm_config_map_eq_none lms _ h1, resolveDynamic_eq_find?]
    have hfind : dyn.find?
        (fun d => normalize_model_name d == normalize_model_name choice) = none := by
      apply List.find?_eq_none.mpr
      intro d hd
      simpa using h2 d hd
    rw [hfind]
    rfl
  · intro lms
    rfl

/-- Witness for C9 with a non-empty discovery list that does not match. -/
theorem resolve_miss_not_found_witness :
    resolve_model_config none ["some-local"] "other-model" = none :=
  resolve_miss_not_found.1 none ["some-local"] "other-model" (by decide) (by decide)

/-- C7: with no discovered models, get_model_choices returns exactly the
static catalog keys in declaration order; and discovery yields no models when
the base URL is unconfigured, the request fails, or the server answers with
HTTP 500. -/
theorem choices_degrade_gracefully :
    (∀ lms : Option String, get_model_choices lms [] = static_keys) ∧
    (∀ out : HTTPOutcome, fetch_lmstudio_models none out = .ok []) ∧
    (∀ lms : Option String, fetch_lmstudio_models lms .networkError = .ok []) ∧
    (∀ (lms : Option String) (body : Option Json),
        fetch_lmstudio_models lms (.response 500 body) = .ok []) := by
  refine ⟨fun lms => rfl, fun out => rfl, fun lms => ?_, fun lms body => ?_⟩
  · simp only [fetch_lmstudio_models]
    cases get_lmstudio_base_url lms with
    | none => rfl
    | some b => by_cases hb : b = "" <;> simp [hb]
  · simp only [fetch_lmstudio_models]
    cases get_lmstudio_base_url lms with
    | none => rfl
    | some b =>
      by_cases hb : b = "" <;> simp [hb]

theorem except_map_isOk {ε α β : Type} (e : Except ε α) (f : α → β) :
    (e.map f).isOk = e.isOk := by
  cases e <;> rfl

theorem collectIdsList_isOk (xs : List Json) :
    (collectIdsList xs).isOk = xs.all isObjJson := by
  induction xs with
  | nil => rfl
  | cons m rest ih =>
    cases m with
    | obj kv =>
      simp only [collectIdsList, List.all_cons, isObjJson, Bool.true_and]
      cases hid : jlookup "id" kv with
      | none => exact ih
      | some v =>
        by_cases ht : jsonTruthy v
        · simp [ht, except_map_isOk, ih]
        · simp [ht, ih]
    | null => rfl
    | bool b => rfl
    | num n => rfl
    | str s => rfl
    | arr ys => rfl

theorem collectIds_isOk (j : Json) :
    (collectIds j).isOk = dataIterationSucceeds j := by
  cases j with
  | arr xs => exact collectIdsList_isOk xs
  | str s =>
    by_cases hs : s = "" <;>
      simp [collectIds, dataIterationSucceeds, hs, Except.isOk, Except.toBool]
  | obj kvs =>
    cases kvs <;> simp [collectIds, dataIterationSucceeds, Except.isOk, Except.toBool]
  | null => rfl
  | bool b => rfl
  | num n => rfl

theorem fetch_none_ok (out : HTTPOutcome) :
    fetch_lmstudio_models none out = .ok [] := rfl

theorem fetch_networkError_ok (lms : Option String) :
    fetch_lmstudio_models lms .networkError = .ok [] := by
  simp only [fetch_lmstudio_models]
  cases get_lmstudio_base_url lms with
  | none => rfl
  | some b => by_cases hb : b = "" <;> simp [hb]

theorem fetch_badStatus_ok (lms : Option String) (st : Nat) (body : Option Json)
    (h1 : 400 ≤ st) (h2 : st < 600) :
    fetch_lmstudio_models lms (.response st body) = .ok [] := by
  simp only [fetch_lmstudio_models]
  cases get_lmstudio_base_url lms with
  | none => rfl
  | some b =>
    dsimp only
    by_cases hb : b = ""
    · simp [hb]
    · rw [if_neg hb, if_pos ⟨h1, h2⟩]

theorem fetch_nojson_ok (lms : Option String) (st : Nat) :
    fetch_lmstudio_models lms (.response st none) = .ok [] := by
  simp only [fetch_lmstudio_models]
  cases get_lmstudio_base_url lms with
  | none => rfl
  | some b =>
    dsimp only
    by_cases hb : b = ""
    · simp [hb]
    · rw [if_neg hb]
      split <;> rfl

/-- C1 counterexample. -/
theorem fetch_raises_on_nonobject_json :
    fetch_lmstudio_models (some "http://localhost:1234/v1")
        (.response 200 (some (.arr []))) = .error .attributeError ∧
    (Except.error PyErr.attributeError : Except PyErr (List Json)) ≠ .ok [] :=
  ⟨rfl, by simp⟩

/-- C1 amended. -/
theorem fetch_error_characterization :
    ∀ (lms : Option String) (out : HTTPOutcome),
      (fetch_lmstudio_models lms out).isOk = fetchReturnsCleanly lms out ∧
      (lms = none → fetch_lmstudio_models lms out = .ok []) ∧
      (out = .networkError → fetch_lmstudio_models lms out = .ok []) ∧
      (∀ st body, out = .response st body → 400 ≤ st → st < 600 →
        fetch_lmstudio_models lms out = .ok []) ∧
      (∀ st, out = .response st none → fetch_lmstudio_models lms out = .ok []) := by
  intro lms out
  refine ⟨?_, fun h => by rw [h]; exact fetch_none_ok out,
    fun h => by rw [h]; exact fetch_networkError_ok lms,
    fun st body h h1 h2 => by rw [h]; exact fetch_badStatus_ok lms st body h1 h2,
    fun st h => by rw [h]; exact fetch_nojson_ok lms st⟩
  simp only [fetch_lmstudio_models, fetchReturnsCleanly]
  cases get_lmstudio_base_url lms with
  | none => rfl
  | some b =>
    dsimp only
    by_cases hb : b = ""
    · subst hb
      rw [if_pos rfl, if_pos rfl]
      rfl
    · rw [if_neg hb, if_neg hb]
      cases out with
      | networkError => rfl
      | response st body =>
        dsimp only
        by_cases hst : 400 ≤ st ∧ st < 600
        · rw [if_pos hst, if_pos hst]
          rfl
        · rw [if_neg hst, if_neg hst]
          cases body with
          | none => rfl
          | some j =>
            cases j with
            | obj kvs => exact collectIds_isOk _
            | null => rfl
            | bool b2 => rfl
            | num n => rfl
            | str s => rfl
            | arr xs => rfl

/-- C1 witness. -/
theorem fetch_error_characterization_witness :
    fetch_lmstudio_models (some "http://localhost:1234/v1") .networkError = .ok [] :=
  (fetch_error_characterization (some "http://localhost:1234/v1") .networkError).2.2.1 rfl

theorem collectIdsList_eq_presentTruthyIds (xs : List Json)
    (h : ∀ m ∈ xs, isObjJson m = true) :
    collectIdsList xs = .ok (presentTruthyIds xs) := by
  induction xs with
  | nil => rfl
  | cons m rest ih =>
    have hrest := ih (fun m hm => h m (List.mem_cons_of_mem _ hm))
    cases m with
    | obj kv =>
      simp only [collectIdsList, presentTruthyIds, List.filterMap_cons]
      cases hid : jlookup "id" kv with
      | none => simpa [presentTruthyIds] using hrest
      | some v =>
        by_cases ht : jsonTruthy v <;> simp [ht, hrest, presentTruthyIds, Except.map]
    | null => exact absurd (h _ (List.mem_cons_self _ _)) (by simp [isObjJson])
    | bool b => exact absurd (h _ (List.mem_cons_self _ _)) (by simp [isObjJson])
    | num n => exact absurd (h _ (List.mem_cons_self _ _)) (by simp [isObjJson])
    | str s => exact absurd (h _ (List.mem_cons_self _ _)) (by simp [isObjJson])
    | arr ys => exact absurd (h _ (List.mem_cons_self _ _)) (by simp [isObjJson])

/-- C8 counterexample: a successful response whose data array holds an object
with the present id value empty string yields [], not the present id. -/
theorem fetch_drops_falsy_present_id :
    fetch_lmstudio_models (some "http://localhost:1234/v1")
        (.response 200 (some (.obj [("data", .arr [.obj [("id", .str "")]])])))
      = .ok [] ∧
    (Except.ok [] : Except PyErr (List Json)) ≠ .ok [.str ""] :=
  ⟨rfl, by simp⟩

/-- C8 amended: for a successful JSON response that is an object whose data
member is an array of objects, fetch_lmstudio_models returns exactly the id
values that are present AND truthy in those objects, in response order. -/
theorem fetch_collects_truthy_ids (lms : Option String) (b : String) (st : Nat)
    (kvs : List (String × Json)) (xs : List Json)
    (hg : get_lmstudio_base_url lms = some b) (hb : b ≠ "")
    (hst : ¬(400 ≤ st ∧ st < 600))
    (hdata : jlookup "data" kvs = some (.arr xs))
    (hobjs : ∀ m ∈ xs, isObjJson m = true) :
    fetch_lmstudio_models lms (.response st (some (.obj kvs)))
      = .ok (presentTruthyIds xs) := by
  simp only [fetch_lmstudio_models, hg]
  rw [if_neg hb, if_neg hst, hdata]
  exact collectIdsList_eq_presentTruthyIds xs hobjs

/-- C8 witness: a data array with a truthy id, a falsy id and a missing id. -/
theorem fetch_collects_truthy_ids_witness :
    fetch_lmstudio_models (some "http://localhost:1234/v1")
        (.response 200 (some (.obj [("data",
          .arr [.obj [("id", .str "m1")], .obj [("id", .str "")], .obj []])])))
      = .ok [.str "m1"] := by
  have h := fetch_collects_truthy_ids (some "http://localhost:1234/v1")
    "http://localhost:1234/v1" 200
    [("data", .arr [.obj [("id", .str "m1")], .obj [("id", .str "")], .obj []])]
    [.obj [("id", .str "m1")], .obj [("id", .str "")], .obj []]
    rfl (by decide) (by decide) rfl (by simp [isObjJson])
  simpa [presentTruthyIds, jsonTruthy] using h

theorem base_pairs_fst :
    ((static_keys.map (fun k => (k, k))).map Prod.fst) = static_keys := by
  decide

theorem static_keys_norm_self : ∀ k ∈ static_keys, normalize_model_name k = k := by
  decide

theorem get_model_choices_eq (lms : Option String) (dyn : List String) :
    get_model_choices lms dyn =
      static_keys ++
        (((dyn.foldl (fun acc dm =>
            let key := normalize_model_name dm
            if acc.any (fun p => p.1 == key) then acc else acc ++ [(key, dm)])
            (static_keys.map (fun k => (k, k)))).map Prod.snd).filter
              (fun name => !static_keys.contains name)).insertionSort
          (fun a b => (normalize_model_name a).data ≤ (normalize_model_name b).data) := rfl

theorem dyn_fold_spec :
    ∀ (rest processed : List String) (extra : List (String × String)),
      (∀ p ∈ extra, p.1 = normalize_model_name p.2 ∧ p.2 ∈ processed ∧
        p.1 ∉ static_keys) →
      ((static_keys.map (fun k => (k, k)) ++ extra).map Prod.fst).Nodup →
      (∀ m ∈ processed, normalize_model_name m ∉ static_keys →
        normalize_model_name m ∈ extra.map Prod.fst) →
      ∃ extra2 : List (String × String),
        rest.foldl (fun acc dm =>
            let key := normalize_model_name dm
            if acc.any (fun p => p.1 == key) then acc else acc ++ [(key, dm)])
          (static_keys.map (fun k => (k, k)) ++ extra)
          = static_keys.map (fun k => (k, k)) ++ extra2 ∧
        (∀ p ∈ extra2, p.1 = normalize_model_name p.2 ∧ p.2 ∈ processed ++ rest ∧
          p.1 ∉ static_keys) ∧
        ((static_keys.map (fun k => (k, k)) ++ extra2).map Prod.fst).Nodup ∧
        (∀ m ∈ processed ++ rest, normalize_model_name m ∉ static_keys →
          normalize_model_name m ∈ extra2.map Prod.fst) := by
  intro rest
  induction rest with
  | nil =>
    intro processed extra h1 h2 h3
    exact ⟨extra, rfl, by simpa using h1, h2, by simpa using h3⟩
  | cons dm rest ih =>
    intro processed extra h1 h2 h3
    rw [List.foldl_cons]
    dsimp only
    by_cases hany : ((static_keys.map (fun k => (k, k)) ++ extra).any
        (fun p => p.1 == normalize_model_name dm)) = true
    · rw [if_pos hany]
      have h1a : ∀ p ∈ extra, p.1 = normalize_model_name p.2 ∧
          p.2 ∈ processed ++ [dm] ∧ p.1 ∉ static_keys :=
        fun p hp => ⟨(h1 p hp).1, List.mem_append_left _ (h1 p hp).2.1, (h1 p hp).2.2⟩
      have h3a : ∀ m ∈ processed ++ [dm], normalize_model_name m ∉ static_keys →
          normalize_model_name m ∈ extra.map Prod.fst := by
        intro m hm hms
        rcases List.mem_append.mp hm with hm | hm
        · exact h3 m hm hms
        · have hmdm : m = dm := by simpa using hm
          subst hmdm
          obtain ⟨p, hp, hpeq⟩ := List.any_eq_true.mp hany
          have hpeq' : p.1 = normalize_model_name m := by simpa using hpeq
          rcases List.mem_append.mp hp with hpb | hpe
          · exfalso
            apply hms
            obtain ⟨k, hk, hkp⟩ := List.mem_map.mp hpb
            rw [← hpeq']
            rw [← hkp]
            exact hk
          · rw [← hpeq']
            exact List.mem_map.mpr ⟨p, hpe, rfl⟩
      obtain ⟨extra2, heq, k1, k2, k3⟩ := ih (processed ++ [dm]) extra h1a h2 h3a
      refine ⟨extra2, heq, ?_, k2, ?_⟩
      · simpa only [List.append_assoc, List.singleton_append] using k1
      · simpa only [List.append_assoc, List.singleton_append] using k3
    · rw [if_neg hany]
      have hkey_not : normalize_model_name dm ∉
          (static_keys.map (fun k => (k, k)) ++ extra).map Prod.fst := by
        intro hmem
        apply hany
        rw [List.any_eq_true]
        obtain ⟨p, hp, hpeq⟩ := List.mem_map.mp hmem
        exact ⟨p, hp, by simp [hpeq]⟩
      have hkey_static : normalize_model_name dm ∉ static_keys := by
        intro hks
        apply hkey_not
        rw [List.map_append, base_pairs_fst]
        exact List.mem_append_left _ hks
      have h1a : ∀ p ∈ extra ++ [(normalize_model_name dm, dm)],
          p.1 = normalize_model_name p.2 ∧ p.2 ∈ processed ++ [dm] ∧
          p.1 ∉ static_keys := by
        intro p hp
        rcases List.mem_append.mp hp with hp | hp
        · exact ⟨(h1 p hp).1, List.mem_append_left _ (h1 p hp).2.1, (h1 p hp).2.2⟩
        · have hpp : p = (normalize_model_name dm, dm) := by simpa using hp
          subst hpp
          exact ⟨rfl, List.mem_append_right _ (by simp), hkey_static⟩
      have h2a : ((static_keys.map (fun k => (k, k)) ++
          (extra ++ [(normalize_model_name dm, dm)])).map Prod.fst).Nodup := by
        rw [← List.append_assoc, List.map_append]
        rw [List.nodup_append]
        refine ⟨h2, List.nodup_singleton _, ?_⟩
        intro a ha hb
        have hab : a = normalize_model_name dm := by simpa using hb
        subst hab
        exact hkey_not ha
      have h3a : ∀ m ∈ processed ++ [dm], normalize_model_name m ∉ static_keys →
          normalize_model_name m ∈ (extra ++ [(normalize_model_name dm, dm)]).map Prod.fst := by
        intro m hm hms
        rcases List.mem_append.mp hm with hm | hm
        · rw [List.map_append]
          exact List.mem_append_left _ (h3 m hm hms)
        · have hmdm : m = dm := by simpa using hm
          subst hmdm
          rw [List.map_append]
          exact List.mem_append_right _ (by simp)
      have hstepacc : (static_keys.map (fun k => (k, k)) ++ extra) ++
          [(normalize_model_name dm, dm)] =
          static_keys.map (fun k => (k, k)) ++
            (extra ++ [(normalize_model_name dm, dm)]) := by
        rw [List.append_assoc]
      rw [hstepacc]
      obtain ⟨extra2, heq, k1, k2, k3⟩ :=
        ih (processed ++ [dm]) (extra ++ [(normalize_model_name dm, dm)]) h1a h2a h3a
      refine ⟨extra2, heq, ?_, k2, ?_⟩
      · simpa only [List.append_assoc, List.singleton_append] using k1
      · simpa only [List.append_assoc, List.singleton_append] using k3

/-- C2: for every discovered list, get_model_choices returns the static
catalog's keys in declaration order, followed by discovered names whose
normalized form matches no static key, sorted alphabetically by normalized
name among themselves; every discovered name whose normalized form matches no
static key is represented in that suffix up to normalization, and no name
appears twice case-insensitively in the whole result. -/
theorem choices_static_then_sorted_dynamic :
    ∀ (lms : Option String) (dyn : List String),
      (get_model_choices lms dyn).take static_keys.length = static_keys ∧
      ((get_model_choices lms dyn).drop static_keys.length).Sorted
        (fun a b => (normalize_model_name a).data ≤ (normalize_model_name b).data) ∧
      (∀ x ∈ (get_model_choices lms dyn).drop static_keys.length,
        x ∈ dyn ∧ normalize_model_name x ∉ static_keys) ∧
      (∀ m ∈ dyn, normalize_model_name m ∉ static_keys →
        ∃ x ∈ (get_model_choices lms dyn).drop static_keys.length,
          normalize_model_name x = normalize_model_name m) ∧
      ((get_model_choices lms dyn).map normalize_model_name).Nodup := by
  intro lms dyn
  have hform := get_model_choices_eq lms dyn
  obtain ⟨extra, heq, h1, h2, h3⟩ :=
    dyn_fold_spec dyn [] [] (by simp) (by decide) (by simp)
  rw [List.append_nil] at heq
  simp only [List.nil_append] at h1 h3
  rw [heq] at hform
  have hvals : (((static_keys.map (fun k => (k, k)) ++ extra).map Prod.snd).filter
      (fun name => !static_keys.contains name)) = extra.map Prod.snd := by
    rw [List.map_append, List.filter_append]
    have hbase_vals : ((static_keys.map (fun k => (k, k))).map Prod.snd).filter
        (fun name => !static_keys.contains name) = [] := by decide
    have hextra_vals : (extra.map Prod.snd).filter
        (fun name => !static_keys.contains name) = extra.map Prod.snd := by
      rw [List.filter_eq_self]
      intro v hv
      obtain ⟨p, hp, rfl⟩ := List.mem_map.mp hv
      have hnotin : p.2 ∉ static_keys := by
        intro hmem
        apply (h1 p hp).2.2
        rw [(h1 p hp).1, static_keys_norm_self p.2 hmem]
        exact hmem
      simpa using hnotin
    rw [hbase_vals, hextra_vals, List.nil_append]
  rw [hvals] at hform
  have hperm := List.perm_insertionSort
    (fun a b => (normalize_model_name a).data ≤ (normalize_model_name b).data)
    (extra.map Prod.snd)
  have hfstnorm : extra.map (fun p => normalize_model_name p.2) = extra.map Prod.fst :=
    List.map_congr_left (fun p hp => ((h1 p hp).1).symm)
  have hextra_fst_nodup : (extra.map Prod.fst).Nodup := by
    rw [List.map_append] at h2
    exact h2.of_append_right
  refine ⟨?_, ?_, ?_, ?_, ?_⟩
  · rw [hform, List.take_left]
  · rw [hform, List.drop_left]
    have htot : IsTotal String
        (fun a b => (normalize_model_name a).data ≤ (normalize_model_name b).data) :=
      ⟨fun a b => le_total _ _⟩
    have htrans : IsTrans String
        (fun a b => (normalize_model_name a).data ≤ (normalize_model_name b).data) :=
      ⟨fun a b c hab hbc => le_trans hab hbc⟩
    exact List.sorted_insertionSort _ _
  · rw [hform, List.drop_left]
    intro x hx
    have hx' : x ∈ extra.map Prod.snd := hperm.mem_iff.mp hx
    obtain ⟨p, hp, rfl⟩ := List.mem_map.mp hx'
    refine ⟨(h1 p hp).2.1, ?_⟩
    rw [← (h1 p hp).1]
    exact (h1 p hp).2.2
  · rw [hform, List.drop_left]
    intro m hm hnm
    have hkey := h3 m hm hnm
    obtain ⟨p, hp, hpk⟩ := List.mem_map.mp hkey
    refine ⟨p.2, hperm.mem_iff.mpr (List.mem_map.mpr ⟨p, hp, rfl⟩), ?_⟩
    rw [← (h1 p hp).1]
    exact hpk
  · rw [hform, List.map_append]
    have hmapstatic : static_keys.map normalize_model_name = static_keys := by decide
    rw [hmapstatic]
    have hsorted_norm : List.Perm
        (((extra.map Prod.snd).insertionSort
          (fun a b => (normalize_model_name a).data ≤ (normalize_model_name b).data)).map
            normalize_model_name) (extra.map Prod.fst) := by
      have := hperm.map normalize_model_name
      rw [List.map_map] at this
      have hcomp : extra.map (normalize_model_name ∘ Prod.snd) = extra.map Prod.fst := by
        rw [← hfstnorm]
        rfl
      rw [hcomp] at this
      exact this
    rw [List.nodup_append]
    refine ⟨by decide, hsorted_norm.nodup_iff.mpr hextra_fst_nodup, ?_⟩
    intro a ha hb
    have hb' : a ∈ extra.map Prod.fst := hsorted_norm.subset hb
    obtain ⟨p, hp, rfl⟩ := List.mem_map.mp hb'
    exact (h1 p hp).2.2 ha

/-- Witness for C2 with two discovered models sorted case-insensitively. -/
theorem choices_static_then_sorted_dynamic_witness :
    (get_model_choices none ["B-local", "a-local"]).take static_keys.length
      = static_keys ∧
    ((get_model_choices none ["B-local", "a-local"]).map normalize_model_name).Nodup :=
  ⟨(choices_static_then_sorted_dynamic none ["B-local", "a-local"]).1,
   (choices_static_then_sorted_dynamic none ["B-local", "a-local"]).2.2.2.2⟩

end LlmUtils
